import Mathlib

/-!
Shallow embedding of `src/iddb-wrapper.js` (class `IDDB_Wrapper`), a convenience
layer over the browser's IndexedDB engine.

The embedding models:
* the IndexedDB engine state (`Engine`): the single named database (created flag,
  version, object stores with records and an auto-increment key generator),
  the set of connection handles ever produced by `indexedDB.open` (each with an
  open flag and a snapshot of the version / store names it was opened against),
  and an error-injection schedule (`failures`) deciding which `open` requests
  fire `onerror` instead of `onsuccess`;
* the wrapper state (`Wrapper`): the private fields `#dbName`, `#db` (the stored
  connection, as a handle id), `#tables` (the memoized facade cache, mapping a
  table name to the handle id captured by that facade's closures) and
  `#activeTable`;
* every method of the class that the specification's claims touch:
  the constructor, `#openDBWithStore`, `#openTable`, `#set`, `#get`, `#delete`,
  `#getAll`, `#clear`, the `use` facade, `drop`, and `import`.

Record values are an arbitrary type `V`: the blob/base64 tree rewriting that
`import`/`export` perform on values is out of scope (the spec explicitly
excludes binary payload encoding), so `#restoreBlobsFromBase64` acts as the
identity on the opaque payload type.  `JSON.parse` inside `import` is likewise
modelled as an oracle argument: `none` stands for a string that does not parse,
`some data` for a successfully parsed envelope.

Asynchronous methods (which in JS return promises that either resolve or
reject) are modelled as state transformers returning `WState V × Except JSError α`;
a synchronous throw in the constructor is modelled by `Except` directly.
-/

/-- IndexedDB keys used by the wrapper: numbers (the auto-increment generator
produces 1, 2, 3, ...) and strings. -/
inductive JKey where
  | num (n : Nat)
  | str (s : String)
deriving DecidableEq, Repr

/-- The `key` argument of `set(key, value)`: JavaScript `undefined` (argument
absent), `null`, or an actual key. -/
inductive KeyArg where
  | kUndefined
  | kNull
  | key (k : JKey)
deriving DecidableEq, Repr

/-- Errors surfaced by the wrapper: synchronous construction error, engine
open/upgrade failure (`request.onerror`), `InvalidStateError` (transaction on a
closed connection), `NotFoundError` (transaction on a store the connection does
not contain), the `"Invalid JSON format"` error of `import`, and a JS
`TypeError` (dereferencing null; unreachable in the modelled flows). -/
inductive JSError where
  | constructionError
  | connError
  | invalidState
  | notFound
  | formatError
  | typeError
deriving DecidableEq, Repr

/-- A JavaScript value passed as the constructor argument `dbName`. -/
inductive JSArg where
  | vString (s : String)
  | vNull
  | vUndefined
  | vNumber (n : Int)
  | vBool (b : Bool)
deriving DecidableEq, Repr

/-- First-match association-list lookup (the behaviour of `Map.get` /
`objectStoreNames` membership style access used throughout the model). -/
def lookupA {A B : Type} [DecidableEq A] : List (A × B) → A → Option B
  | [], _ => none
  | (k, v) :: r, a => if k = a then some v else lookupA r a

/-- Replace the association of key `a` with `b` wherever it occurs (keys are
unique in every reachable record list). -/
def overwriteA {A B : Type} [DecidableEq A] (a : A) (b : B) : List (A × B) → List (A × B)
  | [] => []
  | (k, v) :: r =>
    if k = a then (a, b) :: overwriteA a b r
    else (k, v) :: overwriteA a b r

/-- Whether some record in the list carries key `a`. -/
def containsKeyA {A B : Type} [DecidableEq A] (a : A) : List (A × B) → Bool
  | [] => false
  | (k, _) :: r => if k = a then true else containsKeyA a r

/-- One IndexedDB object store: its records (key/value pairs, in insertion
order for explicit puts and generator order for adds) and the state of its
auto-increment key generator (the next number it will hand out). -/
structure ObjectStore (V : Type) where
  records : List (JKey × V)
  autoKey : Nat
deriving DecidableEq, Repr

/-- The named database: whether it exists yet, its version (0 when it does not
exist), and its object stores. -/
structure Database (V : Type) where
  created : Bool
  version : Nat
  stores : List (String × ObjectStore V)
deriving DecidableEq, Repr

/-- A connection handle produced by `indexedDB.open`: whether it is still open,
and its snapshot of the database version and store names (the `version` and
`objectStoreNames` properties of an `IDBDatabase`). -/
structure HandleInfo where
  isOpen : Bool
  version : Nat
  storeNames : List String
deriving DecidableEq, Repr

/-- The IndexedDB engine state for the wrapper's one database. `failures` is an
error-injection schedule: each `indexedDB.open` request consumes its head, and
fires `onerror` when that head is `true` (an empty schedule means every open
succeeds). `opens` counts the open requests issued so far. -/
structure Engine (V : Type) where
  db : Database V
  handles : List (Nat × HandleInfo)
  nextHandle : Nat
  failures : List Bool
  opens : Nat
deriving DecidableEq, Repr

/-- The wrapper's private fields: `#dbName`, `#db` (stored connection handle id
or `none`), `#tables` (facade cache: table name to the handle id captured by
that facade's closures), `#activeTable`. -/
structure Wrapper where
  dbName : String
  db : Option Nat
  tables : List (String × Nat)
  activeTable : Option String
deriving DecidableEq, Repr

/-- Combined wrapper-plus-engine state threaded through every operation. -/
structure WState (V : Type) where
  w : Wrapper
  e : Engine V
deriving DecidableEq, Repr

/-- Names of the stores the database currently declares. -/
def storeNameList {V : Type} (d : Database V) : List String :=
  d.stores.map Prod.fst

/-- Upgrade callback of the first open in `#openDBWithStore`:
`if (!db.objectStoreNames.contains(tableName)) db.createObjectStore(tableName, { autoIncrement: true })`. -/
def createStoreIfAbsent {V : Type} (t : String) (d : Database V) : Database V :=
  if t ∈ storeNameList d then d
  else { d with stores := d.stores ++ [(t, ⟨[], 1⟩)] }

/-- Upgrade callback of the second (version-bump) open in `#openDBWithStore`:
`upDb.createObjectStore(tableName, { autoIncrement: true })` (unconditional). -/
def createStoreAlways {V : Type} (t : String) (d : Database V) : Database V :=
  { d with stores := d.stores ++ [(t, ⟨[], 1⟩)] }

/-- Upgrade callback of `drop`:
`if (db.objectStoreNames.contains(tableName)) db.deleteObjectStore(tableName)`. -/
def deleteStoreIfPresent {V : Type} (t : String) (d : Database V) : Database V :=
  { d with stores := d.stores.filter (fun p => if p.1 = t then false else true) }

/-- Register a fresh open connection handle whose snapshot is taken from
database `d`. -/
def addHandle {V : Type} (e : Engine V) (d : Database V) : Engine V :=
  { e with
      handles := (e.nextHandle, ⟨true, d.version, storeNameList d⟩) :: e.handles,
      nextHandle := e.nextHandle + 1 }

/-- Bookkeeping every open request performs up front: consume one entry of the
failure schedule and count the request. -/
def popOpen {V : Type} (e : Engine V) : Engine V :=
  { e with failures := e.failures.tail, opens := e.opens + 1 }

/-- `indexedDB.open(name)` / `indexedDB.open(name, v)` with upgrade callback
`cb` (the `onupgradeneeded` handler). Consumes one entry of the failure
schedule; on failure the request fires `onerror` and the database is untouched.
With no requested version: a missing database is created at version 1 (firing
the upgrade callback), an existing one is opened as-is. With a requested
version `v`: equal to the current version opens as-is, smaller fails
(`VersionError`), larger (or missing database) upgrades to `v` firing the
callback. Returns the new handle id on success. -/
def engineOpen {V : Type} (e : Engine V) (rv : Option Nat)
    (cb : Database V → Database V) : Engine V × Except JSError Nat :=
  if e.failures.headD false then (popOpen e, .error .connError)
  else
    match rv with
    | none =>
      if e.db.created then
        (addHandle (popOpen e) e.db, .ok e.nextHandle)
      else
        (addHandle { popOpen e with db := cb { e.db with created := true, version := 1 } }
          (cb { e.db with created := true, version := 1 }), .ok e.nextHandle)
    | some v =>
      if e.db.created then
        if v = e.db.version then
          (addHandle (popOpen e) e.db, .ok e.nextHandle)
        else if v < e.db.version then
          (popOpen e, .error .connError)
        else
          (addHandle { popOpen e with db := cb { e.db with version := v } }
            (cb { e.db with version := v }), .ok e.nextHandle)
      else
        (addHandle { popOpen e with db := cb { e.db with created := true, version := v } }
          (cb { e.db with created := true, version := v }), .ok e.nextHandle)

/-- Mark every list entry carrying handle id `h` as closed. -/
def closeHandleList (h : Nat) : List (Nat × HandleInfo) → List (Nat × HandleInfo)
  | [] => []
  | (k, i) :: r =>
    if k = h then (k, { i with isOpen := false }) :: closeHandleList h r
    else (k, i) :: closeHandleList h r

/-- `db.close()` on handle `h` (idempotent; a no-op on unknown ids). -/
def closeHandle {V : Type} (e : Engine V) (h : Nat) : Engine V :=
  { e with handles := closeHandleList h e.handles }

/-- The `objectStoreNames` snapshot of handle `h`. -/
def handleStores {V : Type} (e : Engine V) (h : Nat) : List String :=
  ((lookupA e.handles h).map HandleInfo.storeNames).getD []

/-- The `version` property of handle `h`. -/
def handleVersion {V : Type} (e : Engine V) (h : Nat) : Nat :=
  ((lookupA e.handles h).map HandleInfo.version).getD 0

/-- Whether handle `h` is currently open. -/
def handleIsOpen {V : Type} (e : Engine V) (h : Nat) : Bool :=
  ((lookupA e.handles h).map HandleInfo.isOpen).getD false

/-- Current contents of store `t` in the shared database (a transaction's view;
stores that do not exist read as empty, though every modelled access is guarded
by the transaction check first). -/
def getStore {V : Type} (d : Database V) (t : String) : ObjectStore V :=
  (lookupA d.stores t).getD ⟨[], 1⟩

/-- Write back the contents of store `t`. -/
def setStore {V : Type} (d : Database V) (t : String) (st : ObjectStore V) : Database V :=
  { d with stores := overwriteA t st d.stores }

/-- `db.transaction(tableName)` on handle `h`: throws `InvalidStateError` when
the connection is closed (or unknown), `NotFoundError` when the connection's
store-name snapshot does not contain the store. -/
def txCheck {V : Type} (e : Engine V) (h : Nat) (t : String) : Option JSError :=
  match lookupA e.handles h with
  | none => some .invalidState
  | some i =>
    if i.isOpen = false then some .invalidState
    else if t ∈ i.storeNames then none
    else some .notFound

/-- `store.put(value, key)` record-list effect: overwrite the record at `k` if
present, else append it. -/
def putList {V : Type} (l : List (JKey × V)) (k : JKey) (v : V) : List (JKey × V) :=
  if containsKeyA k l then overwriteA k v l else l ++ [(k, v)]

/-- `store.put(value, key)`: upsert at `k`; an explicit numeric key at or above
the generator bumps the generator past it (native IndexedDB key-generator
behaviour). -/
def putRecord {V : Type} (st : ObjectStore V) (k : JKey) (v : V) : ObjectStore V :=
  { records := putList st.records k v,
    autoKey :=
      match k with
      | .num n => if st.autoKey ≤ n then n + 1 else st.autoKey
      | .str _ => st.autoKey }

/-- `store.add(value)` with the auto-increment generator: appends a record at
the generated key and returns that key. -/
def addAuto {V : Type} (st : ObjectStore V) (v : V) : ObjectStore V × JKey :=
  (⟨st.records ++ [(.num st.autoKey, v)], st.autoKey + 1⟩, .num st.autoKey)

/-- The character set `String.prototype.trim` strips: ECMA-262 WhiteSpace
(TAB U+0009, VT U+000B, FF U+000C, SP U+0020, NBSP U+00A0, ZWNBSP U+FEFF and
the Unicode space-separator category Zs: U+1680, U+2000..U+200A, U+202F,
U+205F, U+3000) together with the LineTerminators (LF U+000A, CR U+000D,
LS U+2028, PS U+2029). -/
def jsWhitespace (c : Char) : Bool :=
  c.toNat = 0x9 || c.toNat = 0xA || c.toNat = 0xB || c.toNat = 0xC || c.toNat = 0xD ||
  c.toNat = 0x20 || c.toNat = 0xA0 || c.toNat = 0x1680 ||
  (0x2000 ≤ c.toNat && c.toNat ≤ 0x200A) ||
  c.toNat = 0x2028 || c.toNat = 0x2029 || c.toNat = 0x202F || c.toNat = 0x205F ||
  c.toNat = 0x3000 || c.toNat = 0xFEFF

/-- Model of `String.prototype.trim`: strip leading and trailing `jsWhitespace`
characters. -/
def jsTrim (s : String) : String :=
  ⟨((s.data.dropWhile jsWhitespace).reverse.dropWhile jsWhitespace).reverse⟩

/-- The constructor body. The JS condition is
`!dbName || typeof dbName !== "string" || dbName.trim() === ""`: for a string
argument, `!dbName` is truth-testing the string (true exactly for `""`), and
every non-string argument fails the `typeof` clause whatever its truthiness, so
the condition splits by cases on the argument's kind. A successful construction
only records the name; it performs no engine interaction (the returned
`Wrapper` starts with no connection, an empty facade cache and no active
table, and the constructor's type does not even mention the engine state). -/
def constructWrapper (a : JSArg) : Except JSError Wrapper :=
  match a with
  | .vString s =>
    if s = "" ∨ jsTrim s = "" then .error .constructionError
    else .ok ⟨s, none, [], none⟩
  | _ => .error .constructionError

/-- A freshly constructed wrapper paired with a pristine engine (database not
yet created) carrying failure schedule `fs`. -/
def initState (V : Type) (n : String) (fs : List Bool) : WState V :=
  ⟨⟨n, none, [], none⟩, ⟨⟨false, 0, []⟩, [], 0, fs, 0⟩⟩

/-- The slow path of `#openDBWithStore`, reached with `this.#db === null`
(lines 44-81 of the source): first open at the current version with the
create-if-absent upgrade callback; on success store the handle in `#db` and
mark `#activeTable` (lines 56-57) BEFORE checking whether the handle contains
the store; when it does not, close it and reopen at `version + 1` with the
unconditional create callback. On a rejection of either request the fields
keep whatever the code had assigned so far. -/
def openFresh {V : Type} (s : WState V) (t : String) : WState V × Except JSError Nat :=
  match engineOpen s.e none (createStoreIfAbsent t) with
  | (e1, .error er) => (⟨s.w, e1⟩, .error er)
  | (e1, .ok h) =>
    let w1 : Wrapper := { s.w with db := some h, activeTable := some t }
    if t ∈ handleStores e1 h then (⟨w1, e1⟩, .ok h)
    else
      let e2 := closeHandle e1 h
      match engineOpen e2 (some (handleVersion e2 h + 1)) (createStoreAlways t) with
      | (e3, .error er) => (⟨w1, e3⟩, .error er)
      | (e3, .ok h2) =>
        (⟨{ w1 with db := some h2, activeTable := some t }, e3⟩, .ok h2)

/-- `#openDBWithStore(tableName)`: fast path returns the stored connection
unchanged when `#activeTable` matches; otherwise an open stored connection is
closed and both fields cleared before the slow path runs. -/
def openDBWithStore {V : Type} (s : WState V) (t : String) : WState V × Except JSError Nat :=
  match s.w.db with
  | some h =>
    if s.w.activeTable = some t then (s, .ok h)
    else
      let e1 := closeHandle s.e h
      openFresh ⟨{ s.w with db := none, activeTable := none }, e1⟩ t
  | none => openFresh s t

/-- `#openTable(tableName)`: return the memoized facade for `tableName` if one
is cached, else resolve a connection and cache a facade whose operations
capture that connection (`const db = await this.#openDBWithStore(...)`;
the closures close over `db`). The facade is represented by the captured
handle id. -/
def openTable {V : Type} (s : WState V) (t : String) : WState V × Except JSError Nat :=
  match lookupA s.w.tables t with
  | some h => (s, .ok h)
  | none =>
    match openDBWithStore s t with
    | (s1, .error er) => (s1, .error er)
    | (s1, .ok h) => (⟨{ s1.w with tables := (t, h) :: s1.w.tables }, s1.e⟩, .ok h)

/-- `#set(db, tableName, key, value)`: open a readwrite transaction on the
captured handle, then
`const isAuto = key === "auto" || key === null || key === undefined || key === ""`;
auto inserts via `store.add(value)` (resolving with the generated key),
otherwise `store.put(value, key)` (resolving with the echoed key). -/
def setOp {V : Type} (s : WState V) (h : Nat) (t : String) (k : KeyArg) (v : V) :
    WState V × Except JSError JKey :=
  match txCheck s.e h t with
  | some er => (s, .error er)
  | none =>
    let st := getStore s.e.db t
    match k with
    | .key kk =>
      if kk = .str "auto" ∨ kk = .str "" then
        let r := addAuto st v
        (⟨s.w, { s.e with db := setStore s.e.db t r.1 }⟩, .ok r.2)
      else
        (⟨s.w, { s.e with db := setStore s.e.db t (putRecord st kk v) }⟩, .ok kk)
    | _ =>
      let r := addAuto st v
      (⟨s.w, { s.e with db := setStore s.e.db t r.1 }⟩, .ok r.2)

/-- `#get(db, tableName, key)`: read the record at `key`; resolves with
`undefined` (here `none`) when no record exists. -/
def getOp {V : Type} (s : WState V) (h : Nat) (t : String) (k : JKey) :
    WState V × Except JSError (Option V) :=
  match txCheck s.e h t with
  | some er => (s, .error er)
  | none => (s, .ok (lookupA (getStore s.e.db t).records k))

/-- `#delete(db, tableName, key)`: remove the record at `key` (a no-op when
absent) and resolve with `true`. -/
def deleteOp {V : Type} (s : WState V) (h : Nat) (t : String) (k : JKey) :
    WState V × Except JSError Bool :=
  match txCheck s.e h t with
  | some er => (s, .error er)
  | none =>
    let st := getStore s.e.db t
    let st2 : ObjectStore V :=
      { st with records := st.records.filter (fun p => if p.1 = k then false else true) }
    (⟨s.w, { s.e with db := setStore s.e.db t st2 }⟩, .ok true)

/-- IndexedDB key ordering restricted to the modelled keys: numbers sort below
strings, numbers numerically, strings lexicographically. -/
def keyLt : JKey → JKey → Bool
  | .num a, .num b => a < b
  | .num _, .str _ => true
  | .str _, .num _ => false
  | .str a, .str b => a < b

/-- Insert into a key-sorted record list. -/
def insertByKey {V : Type} (p : JKey × V) : List (JKey × V) → List (JKey × V)
  | [] => [p]
  | q :: r => if keyLt p.1 q.1 then p :: q :: r else q :: insertByKey p r

/-- Records in the store's natural (ascending) key order, as a cursor
traversal produces them. -/
def sortRecords {V : Type} (l : List (JKey × V)) : List (JKey × V) :=
  l.foldr insertByKey []

/-- `#getAll(db, tableName)`: cursor traversal materializing every
`{ key, value }` pair in key order. -/
def getAllOp {V : Type} (s : WState V) (h : Nat) (t : String) :
    WState V × Except JSError (List (JKey × V)) :=
  match txCheck s.e h t with
  | some er => (s, .error er)
  | none => (s, .ok (sortRecords (getStore s.e.db t).records))

/-- `#clear(db, tableName)`: remove every record (the generator is not reset)
and resolve with `true`. -/
def clearOp {V : Type} (s : WState V) (h : Nat) (t : String) :
    WState V × Except JSError Bool :=
  match txCheck s.e h t with
  | some er => (s, .error er)
  | none =>
    let st := getStore s.e.db t
    (⟨s.w, { s.e with db := setStore s.e.db t { st with records := [] } }⟩, .ok true)

/-- `use(tableName).set(key, value)`: each facade method first awaits
`#openTable(tableName)` and then runs the table operation with the handle the
cached facade captured. -/
def useSet {V : Type} (s : WState V) (t : String) (k : KeyArg) (v : V) :
    WState V × Except JSError JKey :=
  match openTable s t with
  | (s1, .error er) => (s1, .error er)
  | (s1, .ok h) => setOp s1 h t k v

/-- `use(tableName).get(key)`. -/
def useGet {V : Type} (s : WState V) (t : String) (k : JKey) :
    WState V × Except JSError (Option V) :=
  match openTable s t with
  | (s1, .error er) => (s1, .error er)
  | (s1, .ok h) => getOp s1 h t k

/-- `use(tableName).delete(key)`. -/
def useDelete {V : Type} (s : WState V) (t : String) (k : JKey) :
    WState V × Except JSError Bool :=
  match openTable s t with
  | (s1, .error er) => (s1, .error er)
  | (s1, .ok h) => deleteOp s1 h t k

/-- `use(tableName).getAll()`. -/
def useGetAll {V : Type} (s : WState V) (t : String) :
    WState V × Except JSError (List (JKey × V)) :=
  match openTable s t with
  | (s1, .error er) => (s1, .error er)
  | (s1, .ok h) => getAllOp s1 h t

/-- `use(tableName).clear()`. -/
def useClear {V : Type} (s : WState V) (t : String) :
    WState V × Except JSError Bool :=
  match openTable s t with
  | (s1, .error er) => (s1, .error er)
  | (s1, .ok h) => clearOp s1 h t

/-- The body of `drop` once `this.#db` is known: close it, reopen at the
handle's `version + 1` with the delete-if-present callback, then store the new
handle and evict the facade cache entry (`this.#tables.delete(tableName)`).
`#activeTable` is never touched. Reading `this.#db` when it is `null` would be
a JS `TypeError`; that branch is unreachable from `drop`. -/
def dropWithDb {V : Type} (s : WState V) (t : String) : WState V × Except JSError Unit :=
  match s.w.db with
  | none => (s, .error .typeError)
  | some h =>
    let e1 := closeHandle s.e h
    match engineOpen e1 (some (handleVersion e1 h + 1)) (deleteStoreIfPresent t) with
    | (e2, .error er) => (⟨s.w, e2⟩, .error er)
    | (e2, .ok h2) =>
      (⟨{ s.w with
            db := some h2,
            tables := s.w.tables.filter (fun p => if p.1 = t then false else true) }, e2⟩,
        .ok ())

/-- `drop(tableName)`: ensure a connection exists
(`if (!this.#db) await this.#openDBWithStore(tableName)`), then run the
close-and-reopen body. -/
def drop {V : Type} (s : WState V) (t : String) : WState V × Except JSError Unit :=
  match s.w.db with
  | none =>
    match openDBWithStore s t with
    | (s1, .error er) => (s1, .error er)
    | (s1, .ok _) => dropWithDb s1 t
  | some _ => dropWithDb s t

/-- The single readwrite transaction of one `import` iteration: put every
`{ key, value }` row of the envelope back at its original key (blob
restoration is the identity on the opaque payload type). -/
def putRowsTx {V : Type} (s : WState V) (h : Nat) (t : String)
    (rows : List (JKey × V)) : WState V × Except JSError Unit :=
  match txCheck s.e h t with
  | some er => (s, .error er)
  | none =>
    let st := rows.foldl (fun st p => putRecord st p.1 p.2) (getStore s.e.db t)
    (⟨s.w, { s.e with db := setStore s.e.db t st }⟩, .ok ())

/-- The `for (const tableName in data)` loop of `import`: per store, resolve a
connection, clear the store, write every row in one transaction, await commit,
then `db.close(); this.#db = null;`. A rejection at any point aborts the loop,
leaving earlier stores already overwritten. -/
def importLoop {V : Type} (s : WState V) :
    List (String × List (JKey × V)) → WState V × Except JSError Unit
  | [] => (s, .ok ())
  | (t, rows) :: rest =>
    match openDBWithStore s t with
    | (s1, .error er) => (s1, .error er)
    | (s1, .ok h) =>
      match clearOp s1 h t with
      | (s2, .error er) => (s2, .error er)
      | (s2, .ok _) =>
        match putRowsTx s2 h t rows with
        | (s3, .error er) => (s3, .error er)
        | (s3, .ok _) =>
          importLoop ⟨{ s3.w with db := none }, closeHandle s3.e h⟩ rest

/-- `import(jsonString)`: `JSON.parse` is modelled as the oracle argument
`parsed` (`none` exactly when the string does not parse as JSON, in which case
the method throws `"Invalid JSON format"` before touching any store). -/
def importW {V : Type} (s : WState V)
    (parsed : Option (List (String × List (JKey × V)))) : WState V × Except JSError Unit :=
  match parsed with
  | none => (s, .error .formatError)
  | some data => importLoop s data

/-- Every handle the engine has ever handed out is closed. -/
def allClosed {V : Type} (e : Engine V) : Prop :=
  ∀ p ∈ e.handles, p.2.isOpen = false

/-- The only handle that may still be open is the wrapper's stored connection
(true in every state the wrapper can actually reach, since each code path
closes a connection before abandoning it). -/
def onlyDbOpen {V : Type} (s : WState V) : Prop :=
  ∀ p ∈ s.e.handles, p.2.isOpen = true → s.w.db = some p.1

/-- Decidable equality for operation results. -/
instance {E A : Type} [DecidableEq E] [DecidableEq A] : DecidableEq (Except E A)
  | .error a, .error b =>
    if h : a = b then isTrue (congrArg Except.error h)
    else isFalse (fun hh => h (Except.error.inj hh))
  | .error _, .ok _ => isFalse (fun hh => Except.noConfusion hh)
  | .ok _, .error _ => isFalse (fun hh => Except.noConfusion hh)
  | .ok a, .ok b =>
    if h : a = b then isTrue (congrArg Except.ok h)
    else isFalse (fun hh => h (Except.ok.inj hh))

instance {V : Type} (e : Engine V) : Decidable (allClosed e) :=
  inferInstanceAs (Decidable (∀ p ∈ e.handles, p.2.isOpen = false))

instance {V : Type} (s : WState V) : Decidable (onlyDbOpen s) :=
  inferInstanceAs (Decidable (∀ p ∈ s.e.handles, p.2.isOpen = true → s.w.db = some p.1))

/-- Whether the constructor argument is a JavaScript string
(`typeof dbName === "string"`). -/
def isStringArg : JSArg → Bool
  | .vString _ => true
  | _ => false

/-- The auto-key test of `#set`:
`key === "auto" || key === null || key === undefined || key === ""`. -/
def isAuto : KeyArg → Bool
  | .kUndefined => true
  | .kNull => true
  | .key k => if k = .str "auto" ∨ k = .str "" then true else false

/-- C1 trace, step 1: a fresh wrapper writes key 1 to table `"A"` (this caches
the `"A"` facade, whose closures capture connection handle 0). -/
def c1Step1 : WState String × Except JSError JKey :=
  useSet (initState String "mydb" []) "A" (.key (.num 1)) "alice"

/-- C1 trace, step 2: a write to table `"B"` closes handle 0 and reconnects. -/
def c1Step2 : WState String × Except JSError JKey :=
  useSet c1Step1.1 "B" (.key (.num 1)) "bob"

/-- C1 trace, step 3: the earlier `"A"` facade is used again. -/
def c1Step3 : WState String × Except JSError (Option String) :=
  useGet c1Step2.1 "A" (.num 1)

/-- C2 trace, step 1: a fresh wrapper writes key 1 to table `"X"`. -/
def c2Step1 : WState String × Except JSError JKey :=
  useSet (initState String "mydb" []) "X" (.key (.num 1)) "v"

/-- C2 trace, step 2: `drop("X")` (resolves successfully). -/
def c2Step2 : WState String × Except JSError Unit :=
  drop c2Step1.1 "X"

/-- C2 trace, step 3: the first facade operation after the drop. -/
def c2Step3 : WState String × Except JSError (Option String) :=
  useGet c2Step2.1 "X" (.num 1)

/-- C3 counterexample trace, step 1: a fresh wrapper (failure schedule: the
third open request fails) writes to table `"A"`, consuming one successful
open. -/
def c3Step1 : WState String × Except JSError JKey :=
  useSet (initState String "mydb" [false, false, true]) "A" (.key (.num 1)) "a"

/-- C3 counterexample trace, step 2: a read of table `"B"` forces a reconnect;
the first open succeeds (handle 1, store set without `"B"`), and the second,
version-bump open fails. -/
def c3Step2 : WState String × Except JSError (Option String) :=
  useGet c3Step1.1 "B" (.num 1)

/-- C7 non-atomicity trace: importing a two-store envelope with a failure
schedule that rejects the second store's open request. -/
def c7Partial : WState String × Except JSError Unit :=
  importW (initState String "d" [false, true])
    (some [("a", [(.num 1, "x")]), ("b", [(.num 1, "y")])])

/-- C10 counterexample trace: a state with an open stored connection (obtained
by one facade write), followed by a successful import of an empty envelope
(`"{}"` parses to an envelope with no stores, so the loop body never runs). -/
def c10Step1 : WState String × Except JSError JKey :=
  useSet (initState String "d" []) "a" (.key (.num 1)) "x"

/-- C10 counterexample trace: the empty-envelope import. -/
def c10Empty : WState String × Except JSError Unit :=
  importW c10Step1.1 (some [])

/-- A reachable state with an open connection (handle 0) bound to store `"T"`:
the database exists at version 1 with the single store `"T"` (generator at 1),
and the `"T"` facade is cached capturing handle 0. -/
def demoState : WState String :=
  ⟨⟨"w", some 0, [("T", 0)], some "T"⟩,
    ⟨⟨true, 1, [("T", ⟨[], 1⟩)]⟩, [(0, ⟨true, 1, ["T"]⟩)], 1, [], 1⟩⟩

/-- A state with no stored connection over an existing version-1 database that
declares store `"T"`. -/
def c4NoneState : WState String :=
  ⟨⟨"w", none, [], none⟩, ⟨⟨true, 1, [("T", ⟨[], 1⟩)]⟩, [], 1, [], 1⟩⟩

/-- A fresh state whose first scheduled open request fails. -/
def c3FailState : WState String :=
  ⟨⟨"w", none, [], none⟩, ⟨⟨false, 0, []⟩, [], 0, [true], 0⟩⟩

/-- A state over a version-1 database declaring only `"A"`, with a schedule
failing the second open request. -/
def c3SecondFailState : WState String :=
  ⟨⟨"w", none, [], none⟩, ⟨⟨true, 1, [("A", ⟨[], 1⟩)]⟩, [], 0, [false, true], 0⟩⟩

theorem lookupA_cons {A B : Type} [DecidableEq A] (qk : A) (qv : B) (r : List (A × B)) (a : A) :
    lookupA ((qk, qv) :: r) a = if qk = a then some qv else lookupA r a := rfl

theorem containsKeyA_iff_mem {A B : Type} [DecidableEq A] (l : List (A × B)) (a : A) :
    containsKeyA a l = true ↔ a ∈ l.map Prod.fst := by
  induction l with
  | nil => simp [containsKeyA]
  | cons q r ih =>
    obtain ⟨qk, qv⟩ := q
    by_cases hq : qk = a
    · subst hq
      simp [containsKeyA]
    · rw [containsKeyA, if_neg hq, List.map_cons, ih]
      constructor
      · exact fun h => List.mem_cons_of_mem _ h
      · intro h
        rcases List.mem_cons.mp h with h1 | h1
        · exact absurd h1.symm hq
        · exact h1

theorem lookupA_overwriteA_self {A B : Type} [DecidableEq A] (l : List (A × B)) (a : A) (b : B)
    (h : a ∈ l.map Prod.fst) :
    lookupA (overwriteA a b l) a = some b := by
  induction l with
  | nil => simp at h
  | cons q r ih =>
    obtain ⟨qk, qv⟩ := q
    by_cases hq : qk = a
    · rw [overwriteA, if_pos hq, lookupA_cons, if_pos rfl]
    · rw [overwriteA, if_neg hq, lookupA_cons, if_neg hq]
      apply ih
      rw [List.map_cons] at h
      rcases List.mem_cons.mp h with h1 | h1
      · exact absurd h1.symm hq
      · exact h1

theorem lookupA_overwriteA_other {A B : Type} [DecidableEq A] (l : List (A × B)) (a c : A) (b : B)
    (h : c ≠ a) :
    lookupA (overwriteA a b l) c = lookupA l c := by
  induction l with
  | nil => rfl
  | cons q r ih =>
    obtain ⟨qk, qv⟩ := q
    by_cases hq : qk = a
    · rw [overwriteA, if_pos hq, lookupA_cons, if_neg (fun e => h e.symm), lookupA_cons,
        if_neg (fun e => h (hq ▸ e).symm)]
      exact ih
    · rw [overwriteA, if_neg hq, lookupA_cons, lookupA_cons, ih]

theorem lookupA_append_last {A B : Type} [DecidableEq A] (l : List (A × B)) (a : A) (b : B)
    (h : a ∉ l.map Prod.fst) :
    lookupA (l ++ [(a, b)]) a = some b := by
  induction l with
  | nil => simp [lookupA]
  | cons q r ih =>
    obtain ⟨qk, qv⟩ := q
    have hq : ¬qk = a := by
      intro e
      exact h (by simp [e])
    have h2 : a ∉ r.map Prod.fst := fun hm => h (by simp [hm])
    rw [List.cons_append, lookupA_cons, if_neg hq]
    exact ih h2

theorem lookupA_append_other {A B : Type} [DecidableEq A] (l : List (A × B)) (a c : A) (b : B)
    (h : c ≠ a) :
    lookupA (l ++ [(a, b)]) c = lookupA l c := by
  induction l with
  | nil =>
    rw [List.nil_append, lookupA_cons, if_neg (fun e => h e.symm)]
  | cons q r ih =>
    obtain ⟨qk, qv⟩ := q
    rw [List.cons_append, lookupA_cons, lookupA_cons, ih]

theorem lookupA_putList_self {V : Type} (l : List (JKey × V)) (k : JKey) (v : V) :
    lookupA (putList l k v) k = some v := by
  unfold putList
  by_cases h : k ∈ l.map Prod.fst
  · rw [if_pos ((containsKeyA_iff_mem l k).mpr h)]
    exact lookupA_overwriteA_self l k v h
  · rw [if_neg (fun hh => h ((containsKeyA_iff_mem l k).mp hh))]
    exact lookupA_append_last l k v h

theorem lookupA_putList_other {V : Type} (l : List (JKey × V)) (k c : JKey) (v : V)
    (h : c ≠ k) :
    lookupA (putList l k v) c = lookupA l c := by
  unfold putList
  split
  · exact lookupA_overwriteA_other l k c v h
  · exact lookupA_append_other l k c v h

theorem getStore_setStore_self {V : Type} (d : Database V) (t : String) (st : ObjectStore V)
    (h : t ∈ storeNameList d) :
    getStore (setStore d t st) t = st := by
  show (lookupA (overwriteA t st d.stores) t).getD ⟨[], 1⟩ = st
  rw [lookupA_overwriteA_self d.stores t st h]
  rfl

theorem closeHandle_db {V : Type} (e : Engine V) (h : Nat) : (closeHandle e h).db = e.db := rfl

theorem closeHandle_failures {V : Type} (e : Engine V) (h : Nat) :
    (closeHandle e h).failures = e.failures := rfl

theorem closeHandle_opens {V : Type} (e : Engine V) (h : Nat) :
    (closeHandle e h).opens = e.opens := rfl

theorem closeHandle_nextHandle {V : Type} (e : Engine V) (h : Nat) :
    (closeHandle e h).nextHandle = e.nextHandle := rfl

theorem addHandle_db {V : Type} (e : Engine V) (d : Database V) : (addHandle e d).db = e.db := rfl

theorem addHandle_failures {V : Type} (e : Engine V) (d : Database V) :
    (addHandle e d).failures = e.failures := rfl

theorem addHandle_opens {V : Type} (e : Engine V) (d : Database V) :
    (addHandle e d).opens = e.opens := rfl

theorem addHandle_nextHandle {V : Type} (e : Engine V) (d : Database V) :
    (addHandle e d).nextHandle = e.nextHandle + 1 := rfl

theorem popOpen_db {V : Type} (e : Engine V) : (popOpen e).db = e.db := rfl

theorem popOpen_failures {V : Type} (e : Engine V) : (popOpen e).failures = e.failures.tail := rfl

theorem popOpen_opens {V : Type} (e : Engine V) : (popOpen e).opens = e.opens + 1 := rfl

theorem popOpen_nextHandle {V : Type} (e : Engine V) : (popOpen e).nextHandle = e.nextHandle := rfl

theorem engineOpen_fail {V : Type} (e : Engine V) (rv : Option Nat)
    (cb : Database V → Database V) (hf : e.failures.headD false = true) :
    engineOpen e rv cb = (popOpen e, .error .connError) := by
  unfold engineOpen
  rw [hf]
  simp

theorem engineOpen_none_created {V : Type} (e : Engine V) (cb : Database V → Database V)
    (hf : e.failures.headD false = false) (hc : e.db.created = true) :
    engineOpen e none cb = (addHandle (popOpen e) e.db, .ok e.nextHandle) := by
  unfold engineOpen
  rw [hf, hc]
  simp

theorem engineOpen_some_bump {V : Type} (e : Engine V) (v : Nat) (cb : Database V → Database V)
    (hf : e.failures.headD false = false) (hc : e.db.created = true) (hv : e.db.version < v) :
    engineOpen e (some v) cb
      = (addHandle { popOpen e with db := cb { e.db with version := v } }
          (cb { e.db with version := v }), .ok e.nextHandle) := by
  unfold engineOpen
  rw [hf, hc]
  simp [Nat.ne_of_gt hv, Nat.not_lt.mpr (Nat.le_of_lt hv)]

theorem handleStores_addHandle_self {V : Type} (e : Engine V) (d : Database V) (h : Nat)
    (hh : h = e.nextHandle) :
    handleStores (addHandle e d) h = storeNameList d := by
  subst hh
  unfold handleStores addHandle
  dsimp only
  rw [lookupA_cons, if_pos rfl]
  rfl

theorem handleVersion_addHandle_self {V : Type} (e : Engine V) (d : Database V) (h : Nat)
    (hh : h = e.nextHandle) :
    handleVersion (addHandle e d) h = d.version := by
  subst hh
  unfold handleVersion addHandle
  dsimp only
  rw [lookupA_cons, if_pos rfl]
  rfl

theorem lookupA_closeHandleList (k : Nat) (l : List (Nat × HandleInfo)) (h : Nat) :
    lookupA (closeHandleList k l) h
      = if h = k then (lookupA l h).map (fun i => { i with isOpen := false })
        else lookupA l h := by
  induction l with
  | nil =>
    simp [closeHandleList, lookupA]
  | cons q r ih =>
    obtain ⟨qk, qi⟩ := q
    by_cases hq : qk = k
    · by_cases hh : qk = h
      · have hhk : h = k := by rw [← hh, hq]
        rw [closeHandleList, if_pos hq, lookupA_cons, if_pos hh, if_pos hhk, lookupA_cons,
          if_pos hh]
        rfl
      · rw [closeHandleList, if_pos hq, lookupA_cons, if_neg hh, ih, lookupA_cons, if_neg hh]
    · by_cases hh : qk = h
      · have hhk : ¬h = k := by
          intro e
          exact hq (by rw [hh, e])
        rw [closeHandleList, if_neg hq, lookupA_cons, if_pos hh, if_neg hhk, lookupA_cons,
          if_pos hh]
      · rw [closeHandleList, if_neg hq, lookupA_cons, if_neg hh, ih, lookupA_cons, if_neg hh]

theorem handleVersion_closeHandle {V : Type} (e : Engine V) (k h : Nat) :
    handleVersion (closeHandle e k) h = handleVersion e h := by
  unfold handleVersion closeHandle
  dsimp only
  rw [lookupA_closeHandleList]
  split
  · cases lookupA e.handles h <;> rfl
  · rfl

theorem createStoreIfAbsent_mono {V : Type} (t u : String) (d : Database V)
    (h : u ∈ storeNameList d) : u ∈ storeNameList (createStoreIfAbsent t d) := by
  unfold createStoreIfAbsent
  split
  · exact h
  · obtain ⟨p, hp, hpu⟩ := List.mem_map.mp h
    exact List.mem_map.mpr ⟨p, List.mem_append_left _ hp, hpu⟩

theorem createStoreAlways_mono {V : Type} (t u : String) (d : Database V)
    (h : u ∈ storeNameList d) : u ∈ storeNameList (createStoreAlways t d) := by
  obtain ⟨p, hp, hpu⟩ := List.mem_map.mp h
  exact List.mem_map.mpr ⟨p, List.mem_append_left _ hp, hpu⟩

theorem engineOpen_db_mono {V : Type} (e : Engine V) (rv : Option Nat)
    (cb : Database V → Database V) (u : String)
    (hcb : ∀ d : Database V, u ∈ storeNameList d → u ∈ storeNameList (cb d))
    (h : u ∈ storeNameList e.db) :
    u ∈ storeNameList (engineOpen e rv cb).1.db := by
  unfold engineOpen
  split
  · exact h
  · split
    · split
      · exact h
      · exact hcb _ h
    · split
      · split
        · exact h
        · split
          · exact h
          · exact hcb _ h
      · exact hcb _ h

theorem openFresh_db_mono {V : Type} (s : WState V) (t u : String)
    (h : u ∈ storeNameList s.e.db) : u ∈ storeNameList (openFresh s t).1.e.db := by
  unfold openFresh
  rcases heo : engineOpen s.e none (createStoreIfAbsent t) with ⟨e1, r1⟩
  have h1 : u ∈ storeNameList e1.db := by
    have hx := engineOpen_db_mono s.e none (createStoreIfAbsent t) u
      (createStoreIfAbsent_mono t u) h
    rw [heo] at hx
    exact hx
  cases r1 with
  | error er => exact h1
  | ok hh =>
    dsimp only
    split
    · exact h1
    · rcases heo2 : engineOpen (closeHandle e1 hh)
        (some (handleVersion (closeHandle e1 hh) hh + 1)) (createStoreAlways t) with ⟨e3, r3⟩
      have h3 : u ∈ storeNameList e3.db := by
        have hx := engineOpen_db_mono (closeHandle e1 hh)
          (some (handleVersion (closeHandle e1 hh) hh + 1)) (createStoreAlways t) u
          (createStoreAlways_mono t u) (h := h1)
        rw [heo2] at hx
        exact hx
      cases r3 with
      | error er => exact h3
      | ok h2 => exact h3

theorem openDBWithStore_db_mono {V : Type} (s : WState V) (t u : String)
    (h : u ∈ storeNameList s.e.db) : u ∈ storeNameList (openDBWithStore s t).1.e.db := by
  unfold openDBWithStore
  cases hdb : s.w.db with
  | none => exact openFresh_db_mono s t u h
  | some h0 =>
    dsimp only
    split
    · exact h
    · exact openFresh_db_mono
        ⟨{ s.w with db := none, activeTable := none }, closeHandle s.e h0⟩ t u (h := h)

theorem openTable_db_mono {V : Type} (s : WState V) (t u : String)
    (h : u ∈ storeNameList s.e.db) : u ∈ storeNameList (openTable s t).1.e.db := by
  unfold openTable
  cases hlt : lookupA s.w.tables t with
  | some h0 => exact h
  | none =>
    rcases ho : openDBWithStore s t with ⟨s1, r1⟩
    have hx := openDBWithStore_db_mono s t u h
    rw [ho] at hx
    cases r1 with
    | error er => exact hx
    | ok hh => exact hx

theorem openTable_ok_cache {V : Type} (s : WState V) (t : String) (hid : Nat)
    (h : (openTable s t).2 = .ok hid) :
    lookupA (openTable s t).1.w.tables t = some hid := by
  unfold openTable at h ⊢
  cases hlt : lookupA s.w.tables t with
  | some h0 =>
    rw [hlt] at h
    dsimp only at h
    injection h with h
    rw [hlt, h]
  | none =>
    rw [hlt] at h
    dsimp only at h
    rcases ho : openDBWithStore s t with ⟨s1, r1⟩
    rw [ho] at h
    cases r1 with
    | error er =>
      dsimp only at h
      exact Except.noConfusion h
    | ok h0 =>
      dsimp only at h
      injection h with h
      rw [lookupA_cons, if_pos rfl, h]

theorem closeHandleList_open_mem (k : Nat) (l : List (Nat × HandleInfo)) :
    ∀ p ∈ closeHandleList k l, p.2.isOpen = true → p.1 ≠ k ∧ p ∈ l := by
  induction l with
  | nil =>
    intro p hp
    simp [closeHandleList] at hp
  | cons q r ih =>
    obtain ⟨qk, qi⟩ := q
    intro p hp hopen
    by_cases hq : qk = k
    · rw [closeHandleList, if_pos hq] at hp
      rcases List.mem_cons.mp hp with h1 | h1
      · rw [h1] at hopen
        simp at hopen
      · obtain ⟨hne, hmem⟩ := ih p h1 hopen
        exact ⟨hne, List.mem_cons_of_mem _ hmem⟩
    · rw [closeHandleList, if_neg hq] at hp
      rcases List.mem_cons.mp hp with h1 | h1
      · rw [h1]
        exact ⟨hq, List.mem_cons_self _ _⟩
      · obtain ⟨hne, hmem⟩ := ih p h1 hopen
        exact ⟨hne, List.mem_cons_of_mem _ hmem⟩

theorem allClosed_closeHandle_of {V : Type} (e : Engine V) (k : Nat)
    (hother : ∀ p ∈ e.handles, p.2.isOpen = true → p.1 = k) :
    allClosed (closeHandle e k) := by
  intro p hp
  by_cases ho : p.2.isOpen = true
  · obtain ⟨hne, hmem⟩ := closeHandleList_open_mem k e.handles p hp ho
    exact absurd (hother p hmem ho) hne
  · simp at ho
    exact ho

theorem engineOpen_ok_shape {V : Type} (e : Engine V) (rv : Option Nat)
    (cb : Database V → Database V) (e1 : Engine V) (h : Nat)
    (heo : engineOpen e rv cb = (e1, .ok h)) :
    h = e.nextHandle ∧
      ∃ i : HandleInfo, i.isOpen = true ∧ e1.handles = (e.nextHandle, i) :: e.handles := by
  unfold engineOpen at heo
  split at heo
  · injection heo with h1 h2
    exact Except.noConfusion h2
  · split at heo
    · split at heo
      · injection heo with h1 h2
        injection h2 with h2
        exact ⟨h2.symm, ⟨true, _, _⟩, rfl, by rw [← h1]; rfl⟩
      · injection heo with h1 h2
        injection h2 with h2
        exact ⟨h2.symm, ⟨true, _, _⟩, rfl, by rw [← h1]; rfl⟩
    · split at heo
      · split at heo
        · injection heo with h1 h2
          injection h2 with h2
          exact ⟨h2.symm, ⟨true, _, _⟩, rfl, by rw [← h1]; rfl⟩
        · split at heo
          · injection heo with h1 h2
            exact Except.noConfusion h2
          · injection heo with h1 h2
            injection h2 with h2
            exact ⟨h2.symm, ⟨true, _, _⟩, rfl, by rw [← h1]; rfl⟩
      · injection heo with h1 h2
        injection h2 with h2
        exact ⟨h2.symm, ⟨true, _, _⟩, rfl, by rw [← h1]; rfl⟩

theorem openFresh_ok_inv {V : Type} (s : WState V) (t : String) (s1 : WState V) (h : Nat)
    (hall : allClosed s.e) (hof : openFresh s t = (s1, .ok h)) :
    s1.w.db = some h ∧ onlyDbOpen s1 := by
  unfold openFresh at hof
  rcases heo : engineOpen s.e none (createStoreIfAbsent t) with ⟨e1, r1⟩
  rw [heo] at hof
  cases r1 with
  | error er =>
    dsimp only at hof
    injection hof with h1 h2
    exact Except.noConfusion h2
  | ok hh =>
    obtain ⟨hhh, i, hio, hhandles⟩ := engineOpen_ok_shape s.e none _ e1 hh heo
    dsimp only at hof
    split at hof
    · injection hof with h1 h2
      injection h2 with h2
      rw [← h1]
      refine ⟨by rw [h2], ?_⟩
      intro p hp hopen
      rw [hhandles] at hp
      rcases List.mem_cons.mp hp with hp1 | hp1
      · rw [hp1]
        show some hh = some s.e.nextHandle
        rw [hhh]
      · have hcl := hall p hp1
        rw [hcl] at hopen
        exact Bool.noConfusion hopen
    · rcases heo2 : engineOpen (closeHandle e1 hh)
        (some (handleVersion (closeHandle e1 hh) hh + 1)) (createStoreAlways t) with ⟨e3, r3⟩
      rw [heo2] at hof
      cases r3 with
      | error er =>
        dsimp only at hof
        injection hof with h1 h2
        exact Except.noConfusion h2
      | ok h2 =>
        obtain ⟨hh2, i2, hio2, hhandles2⟩ := engineOpen_ok_shape _ _ _ e3 h2 heo2
        dsimp only at hof
        injection hof with h1 hx
        injection hx with hx
        rw [← h1]
        refine ⟨by rw [hx], ?_⟩
        intro p hp hopen
        rw [show (⟨⟨s.w.dbName, some h2, s.w.tables, some t⟩, e3⟩ : WState V).e.handles
            = e3.handles from rfl, hhandles2] at hp
        rcases List.mem_cons.mp hp with hp1 | hp1
        · rw [hp1]
          show some h2 = some (closeHandle e1 hh).nextHandle
          rw [hh2]
        · obtain ⟨hne, hmem⟩ := closeHandleList_open_mem hh e1.handles p hp1 hopen
          rw [hhandles] at hmem
          rcases List.mem_cons.mp hmem with hm1 | hm1
          · refine absurd ?_ hne
            rw [hm1]
            exact hhh.symm
          · have hcl := hall p hm1
            rw [hcl] at hopen
            exact Bool.noConfusion hopen

theorem openDBWithStore_ok_inv {V : Type} (s : WState V) (t : String) (s1 : WState V) (h : Nat)
    (hinv : onlyDbOpen s) (ho : openDBWithStore s t = (s1, .ok h)) :
    s1.w.db = some h ∧ onlyDbOpen s1 := by
  unfold openDBWithStore at ho
  cases hdb : s.w.db with
  | none =>
    rw [hdb] at ho
    dsimp only at ho
    have hall : allClosed s.e := by
      intro p hp
      by_cases hop : p.2.isOpen = true
      · have hc := hinv p hp hop
        rw [hdb] at hc
        exact Option.noConfusion hc
      · simp at hop
        exact hop
    exact openFresh_ok_inv s t s1 h hall ho
  | some h0 =>
    rw [hdb] at ho
    dsimp only at ho
    split at ho
    · injection ho with h1 h2
      injection h2 with h2
      rw [← h1]
      exact ⟨by rw [hdb, h2], hinv⟩
    · have hall : allClosed (closeHandle s.e h0) := by
        apply allClosed_closeHandle_of
        intro p hp hop
        have hc := hinv p hp hop
        rw [hdb] at hc
        exact (Option.some.inj hc).symm
      exact openFresh_ok_inv
        ⟨{ s.w with db := none, activeTable := none }, closeHandle s.e h0⟩ t s1 h hall ho

theorem clearOp_frame {V : Type} (s : WState V) (h : Nat) (t : String) :
    (clearOp s h t).1.w = s.w ∧ (clearOp s h t).1.e.handles = s.e.handles := by
  unfold clearOp
  cases txCheck s.e h t <;> exact ⟨rfl, rfl⟩

theorem putRowsTx_frame {V : Type} (s : WState V) (h : Nat) (t : String)
    (rows : List (JKey × V)) :
    (putRowsTx s h t rows).1.w = s.w ∧ (putRowsTx s h t rows).1.e.handles = s.e.handles := by
  unfold putRowsTx
  cases txCheck s.e h t <;> exact ⟨rfl, rfl⟩

theorem importLoop_ends_closed {V : Type} (data : List (String × List (JKey × V))) :
    ∀ s : WState V, onlyDbOpen s → data ≠ [] →
      (importLoop s data).2 = .ok () →
      (importLoop s data).1.w.db = none ∧ allClosed (importLoop s data).1.e := by
  induction data with
  | nil =>
    intro s _ hne _
    exact absurd rfl hne
  | cons hd rest ih =>
    obtain ⟨t, rows⟩ := hd
    intro s hinv _ hok
    rw [show importLoop s ((t, rows) :: rest)
        = (match openDBWithStore s t with
          | (s1, .error er) => (s1, .error er)
          | (s1, .ok h) =>
            match clearOp s1 h t with
            | (s2, .error er) => (s2, .error er)
            | (s2, .ok _) =>
              match putRowsTx s2 h t rows with
              | (s3, .error er) => (s3, .error er)
              | (s3, .ok _) =>
                importLoop ⟨{ s3.w with db := none }, closeHandle s3.e h⟩ rest) from rfl]
      at hok ⊢
    rcases hO : openDBWithStore s t with ⟨s1, r1⟩
    rw [hO] at hok
    cases r1 with
    | error er =>
      dsimp only at hok
      exact Except.noConfusion hok
    | ok h =>
      dsimp only at hok ⊢
      obtain ⟨hdb1, hinv1⟩ := openDBWithStore_ok_inv s t s1 h hinv hO
      rcases hC : clearOp s1 h t with ⟨s2, r2⟩
      rw [hC] at hok
      cases r2 with
      | error er =>
        dsimp only at hok
        exact Except.noConfusion hok
      | ok b2 =>
        dsimp only at hok ⊢
        obtain ⟨hw2, hh2⟩ := clearOp_frame s1 h t
        rw [hC] at hw2 hh2
        rcases hP : putRowsTx s2 h t rows with ⟨s3, r3⟩
        rw [hP] at hok
        cases r3 with
        | error er =>
          dsimp only at hok
          exact Except.noConfusion hok
        | ok b3 =>
          dsimp only at hok ⊢
          obtain ⟨hw3, hh3⟩ := putRowsTx_frame s2 h t rows
          rw [hP] at hw3 hh3
          have hdb3 : s3.w.db = some h := by
            rw [hw3, hw2, hdb1]
          have hinv3 : onlyDbOpen s3 := by
            intro p hp hop
            rw [hh3, hh2] at hp
            rw [hw3, hw2]
            exact hinv1 p hp hop
          have hall4 : allClosed (closeHandle s3.e h) := by
            apply allClosed_closeHandle_of
            intro p hp hop
            have hc := hinv3 p hp hop
            rw [hdb3] at hc
            exact (Option.some.inj hc).symm
          have hinv4 : onlyDbOpen (⟨{ s3.w with db := none }, closeHandle s3.e h⟩ : WState V) := by
            intro p hp hop
            have hc := hall4 p hp
            rw [hc] at hop
            exact Bool.noConfusion hop
          cases rest with
          | nil => exact ⟨rfl, hall4⟩
          | cons rhd rtl =>
            exact ih (⟨{ s3.w with db := none }, closeHandle s3.e h⟩ : WState V) hinv4
              (by simp) hok

/-- C1: the claim fails on the code. The facade cached by `#openTable` captures
the connection handle once (`const db = await this.#openDBWithStore(...)`);
after switching to table `"B"` and back, the cached `"A"` facade still holds
the now-closed handle, so its `get` rejects with an `InvalidStateError`
instead of working against the reopened connection — even though the record
written to `"A"` is still intact in the database. -/
theorem c1_stale_facade_bug :
    c1Step1.2 = .ok (.num 1) ∧
    c1Step2.2 = .ok (.num 1) ∧
    c1Step3.2 = .error .invalidState ∧
    lookupA (getStore c1Step3.1.e.db "A").records (.num 1) = some "alice" := by
  decide

/-- C2: the claim fails on the code. `drop` evicts the facade cache entry but
never clears `#activeTable`, so the next `use("X")` operation hits the fast
path of `#openDBWithStore`, which returns the post-drop connection whose store
set no longer contains `"X"`; the transaction then throws `NotFoundError`
instead of recreating an empty store (the database still has no store `"X"`
afterwards). -/
theorem c2_drop_then_use_bug :
    c2Step1.2 = .ok (.num 1) ∧
    c2Step2.2 = .ok () ∧
    c2Step3.2 = .error .notFound ∧
    c2Step3.1.w.activeTable = some "X" ∧
    storeNameList c2Step3.1.e.db = [] := by
  decide

/-- C3 counterexample: after the failure of the second, version-bump open
inside `#openDBWithStore`, the operation rejects with a connection error but
the registry is NOT left with no open handle and no last-used-store marker:
`#db` still holds handle 1 (now closed) and `#activeTable` is `"B"`, because
the code assigns both fields before checking whether the first handle contains
the store. -/
theorem c3_counterexample :
    c3Step2.2 = .error .connError ∧
    c3Step2.1.w.db = some 1 ∧
    c3Step2.1.w.activeTable = some "B" ∧
    handleIsOpen c3Step2.1.e 1 = false := by
  decide

/-- C3 (amended): any engine-level open failure inside `#openDBWithStore`
rejects the pending operation with a connection error. On failure of the first
open the wrapper fields are untouched — starting with no stored connection the
registry still has none, so the next call starts from scratch. On failure of
the second, version-bump open, however, the registry is NOT left clean: it
retains the first (now closed) handle in `#db` and the requested store name in
`#activeTable`, because the code assigns both fields before the
store-containment check. -/
theorem c3_amended_failure_state (V : Type) :
    (∀ (s : WState V) (t : String),
      s.w.db = none → s.e.failures.headD false = true →
      openDBWithStore s t = (⟨s.w, popOpen s.e⟩, .error .connError)) ∧
    (∀ (s : WState V) (t : String) (rest : List Bool),
      s.w.db = none → s.e.failures = false :: true :: rest →
      s.e.db.created = true → t ∉ storeNameList s.e.db →
      (openDBWithStore s t).2 = .error .connError ∧
      (openDBWithStore s t).1.w.db = some s.e.nextHandle ∧
      (openDBWithStore s t).1.w.activeTable = some t ∧
      handleIsOpen (openDBWithStore s t).1.e s.e.nextHandle = false) := by
  constructor
  · intro s t hdb hfail
    unfold openDBWithStore
    rw [hdb]
    dsimp only
    unfold openFresh
    rw [engineOpen_fail s.e none (createStoreIfAbsent t) hfail]
  · intro s t rest hdb hf hc hm
    have hf1 : s.e.failures.headD false = false := by
      rw [hf]
      rfl
    unfold openDBWithStore
    rw [hdb]
    dsimp only
    unfold openFresh
    rw [engineOpen_none_created s.e (createStoreIfAbsent t) hf1 hc]
    dsimp only
    rw [handleStores_addHandle_self (popOpen s.e) s.e.db s.e.nextHandle rfl, if_neg hm]
    set E2 := closeHandle (addHandle (popOpen s.e) s.e.db) s.e.nextHandle with hE2
    rw [engineOpen_fail E2 _ (createStoreAlways t)
      (by rw [hE2, closeHandle_failures, addHandle_failures, popOpen_failures, hf]; rfl)]
    dsimp only
    refine ⟨rfl, rfl, rfl, ?_⟩
    show handleIsOpen (popOpen E2) s.e.nextHandle = false
    unfold handleIsOpen
    rw [show (popOpen E2).handles
        = closeHandleList s.e.nextHandle (addHandle (popOpen s.e) s.e.db).handles from by
      rw [hE2]
      rfl]
    rw [lookupA_closeHandleList, if_pos rfl]
    rw [show (addHandle (popOpen s.e) s.e.db).handles
        = (s.e.nextHandle, ⟨true, s.e.db.version, storeNameList s.e.db⟩)
            :: (popOpen s.e).handles from rfl]
    rw [lookupA_cons, if_pos rfl]
    rfl

/-- Witness for C3 (amended) at concrete states: a failing first open leaves a
fresh wrapper untouched; a failing second open leaves the stale handle 0 and
the `"B"` marker behind. -/
theorem c3_amended_failure_state_witness :
    openDBWithStore c3FailState "T" = (⟨c3FailState.w, popOpen c3FailState.e⟩, .error .connError) ∧
    ((openDBWithStore c3SecondFailState "B").2 = .error .connError ∧
      (openDBWithStore c3SecondFailState "B").1.w.db = some c3SecondFailState.e.nextHandle ∧
      (openDBWithStore c3SecondFailState "B").1.w.activeTable = some "B" ∧
      handleIsOpen (openDBWithStore c3SecondFailState "B").1.e
        c3SecondFailState.e.nextHandle = false) :=
  ⟨(c3_amended_failure_state String).1 c3FailState "T" (by decide) (by decide),
    (c3_amended_failure_state String).2 c3SecondFailState "B" [] (by decide) (by decide)
      (by decide) (by decide)⟩

/-- C4: repeatedly requesting a connection for the same store never triggers a
spurious version bump. (1) When a handle is stored and the last-used-store
marker matches the request, `#openDBWithStore` returns it with the state
completely unchanged — no open request, no version check. (2) When a
connection is opened and the fresh handle's store set contains the requested
store, exactly one open request is issued and the database, its version
included, is unchanged. (3) The second open at `version + 1` is performed only
in the complementary case: when the fresh handle's store set lacks the store,
two open requests are issued, the version is bumped by exactly one and the
store is declared. -/
theorem c4_no_spurious_version_bump (V : Type) :
    (∀ (s : WState V) (t : String) (h : Nat),
      s.w.db = some h → s.w.activeTable = some t →
      openDBWithStore s t = (s, .ok h)) ∧
    (∀ (s : WState V) (t : String),
      s.w.db = none → s.e.failures = [] → s.e.db.created = true →
      t ∈ storeNameList s.e.db →
      (openDBWithStore s t).2 = .ok s.e.nextHandle ∧
      (openDBWithStore s t).1.e.opens = s.e.opens + 1 ∧
      (openDBWithStore s t).1.e.db = s.e.db) ∧
    (∀ (s : WState V) (t : String),
      s.w.db = none → s.e.failures = [] → s.e.db.created = true →
      t ∉ storeNameList s.e.db →
      (openDBWithStore s t).2 = .ok (s.e.nextHandle + 1) ∧
      (openDBWithStore s t).1.e.opens = s.e.opens + 2 ∧
      (openDBWithStore s t).1.e.db.version = s.e.db.version + 1 ∧
      t ∈ storeNameList (openDBWithStore s t).1.e.db) := by
  refine ⟨?_, ?_, ?_⟩
  · intro s t h hdb hact
    unfold openDBWithStore
    rw [hdb]
    dsimp only
    rw [if_pos hact]
  · intro s t hdb hf hc hm
    have hf1 : s.e.failures.headD false = false := by
      rw [hf]
      rfl
    unfold openDBWithStore
    rw [hdb]
    dsimp only
    unfold openFresh
    rw [engineOpen_none_created s.e (createStoreIfAbsent t) hf1 hc]
    dsimp only
    rw [handleStores_addHandle_self (popOpen s.e) s.e.db s.e.nextHandle rfl, if_pos hm]
    exact ⟨rfl, rfl, rfl⟩
  · intro s t hdb hf hc hm
    have hf1 : s.e.failures.headD false = false := by
      rw [hf]
      rfl
    unfold openDBWithStore
    rw [hdb]
    dsimp only
    unfold openFresh
    rw [engineOpen_none_created s.e (createStoreIfAbsent t) hf1 hc]
    dsimp only
    rw [handleStores_addHandle_self (popOpen s.e) s.e.db s.e.nextHandle rfl, if_neg hm]
    rw [handleVersion_closeHandle, handleVersion_addHandle_self (popOpen s.e) s.e.db s.e.nextHandle rfl]
    set E2 := closeHandle (addHandle (popOpen s.e) s.e.db) s.e.nextHandle with hE2
    rw [engineOpen_some_bump E2 (s.e.db.version + 1) (createStoreAlways t)
      (by rw [hE2, closeHandle_failures, addHandle_failures, popOpen_failures, hf]; rfl)
      (by rw [hE2, closeHandle_db, addHandle_db, popOpen_db]; exact hc)
      (by rw [hE2, closeHandle_db, addHandle_db, popOpen_db]; exact Nat.lt_succ_self _)]
    dsimp only
    refine ⟨rfl, rfl, rfl, ?_⟩
    exact List.mem_map.mpr
      ⟨(t, ⟨[], 1⟩), List.mem_append.mpr (Or.inr (List.mem_singleton.mpr rfl)), rfl⟩

/-- Witness for C4 at concrete states: the fast path returns handle 0 with the
state unchanged; opening `"T"` over a database already declaring it issues one
open and keeps the database; opening `"U"` issues two opens and bumps the
version. -/
theorem c4_no_spurious_version_bump_witness :
    openDBWithStore demoState "T" = (demoState, .ok 0) ∧
    ((openDBWithStore c4NoneState "T").2 = .ok 1 ∧
      (openDBWithStore c4NoneState "T").1.e.opens = 2 ∧
      (openDBWithStore c4NoneState "T").1.e.db = c4NoneState.e.db) ∧
    ((openDBWithStore c4NoneState "U").2 = .ok 2 ∧
      (openDBWithStore c4NoneState "U").1.e.opens = 3 ∧
      (openDBWithStore c4NoneState "U").1.e.db.version = 2 ∧
      "U" ∈ storeNameList (openDBWithStore c4NoneState "U").1.e.db) :=
  ⟨(c4_no_spurious_version_bump String).1 demoState "T" 0 (by decide) (by decide),
    (c4_no_spurious_version_bump String).2.1 c4NoneState "T" (by decide) (by decide)
      (by decide) (by decide),
    (c4_no_spurious_version_bump String).2.2 c4NoneState "U" (by decide) (by decide)
      (by decide) (by decide)⟩

/-- C5: `#set` treats the key as an auto-key request exactly for a missing key
(`undefined`), `null`, the empty string, and the literal string `"auto"` (the
literal `"auto"` behaving identically to a missing key); an auto insert
resolves with the engine-assigned sequential integer key — the generator
value, which is then incremented — appending the record at that key, while any
other key performs a create-or-overwrite at that key, resolves with that same
key, and leaves the records at every other key unchanged. -/
theorem c5_set_key_policy (V : Type) :
    (∀ a : KeyArg, isAuto a = true ↔
      (a = .kUndefined ∨ a = .kNull ∨ a = .key (.str "") ∨ a = .key (.str "auto"))) ∧
    (∀ (s : WState V) (h : Nat) (t : String) (a : KeyArg) (v : V),
      txCheck s.e h t = none → t ∈ storeNameList s.e.db → isAuto a = true →
      (setOp s h t a v).2 = .ok (.num (getStore s.e.db t).autoKey) ∧
      (getStore (setOp s h t a v).1.e.db t).records
        = (getStore s.e.db t).records ++ [(.num (getStore s.e.db t).autoKey, v)] ∧
      (getStore (setOp s h t a v).1.e.db t).autoKey = (getStore s.e.db t).autoKey + 1) ∧
    (∀ (s : WState V) (h : Nat) (t : String) (k : JKey) (v : V),
      txCheck s.e h t = none → t ∈ storeNameList s.e.db → isAuto (.key k) = false →
      (setOp s h t (.key k) v).2 = .ok k ∧
      lookupA (getStore (setOp s h t (.key k) v).1.e.db t).records k = some v ∧
      (∀ c : JKey, c ≠ k →
        lookupA (getStore (setOp s h t (.key k) v).1.e.db t).records c
          = lookupA (getStore s.e.db t).records c)) := by
  refine ⟨?_, ?_, ?_⟩
  · intro a
    cases a with
    | kUndefined => simp [isAuto]
    | kNull => simp [isAuto]
    | key k =>
      constructor
      · intro ht
        rw [isAuto] at ht
        split at ht
        · next hc =>
          rcases hc with hc | hc
          · exact Or.inr (Or.inr (Or.inr (by rw [hc])))
          · exact Or.inr (Or.inr (Or.inl (by rw [hc])))
        · simp at ht
      · intro hr
        rw [isAuto]
        rcases hr with h1 | h1 | h1 | h1
        · exact KeyArg.noConfusion h1
        · exact KeyArg.noConfusion h1
        · injection h1 with h2
          rw [if_pos (Or.inr h2)]
        · injection h1 with h2
          rw [if_pos (Or.inl h2)]
  · intro s h t a v htx hm ha
    cases a with
    | kUndefined =>
      simp only [setOp, htx]
      refine ⟨by trivial, ?_, ?_⟩
      · rw [getStore_setStore_self _ _ _ hm]
        exact rfl
      · rw [getStore_setStore_self _ _ _ hm]
        exact rfl
    | kNull =>
      simp only [setOp, htx]
      refine ⟨by trivial, ?_, ?_⟩
      · rw [getStore_setStore_self _ _ _ hm]
        exact rfl
      · rw [getStore_setStore_self _ _ _ hm]
        exact rfl
    | key kk =>
      rw [isAuto] at ha
      split at ha
      · next hc =>
        simp only [setOp, htx, if_pos hc]
        refine ⟨by trivial, ?_, ?_⟩
        · rw [getStore_setStore_self _ _ _ hm]
          exact rfl
        · rw [getStore_setStore_self _ _ _ hm]
          exact rfl
      · simp at ha
  · intro s h t k v htx hm hk
    rw [isAuto] at hk
    have hcond : ¬(k = .str "auto" ∨ k = .str "") := by
      intro hc
      rw [if_pos hc] at hk
      simp at hk
    simp only [setOp, htx, if_neg hcond]
    refine ⟨by trivial, ?_, ?_⟩
    · rw [getStore_setStore_self _ _ _ hm]
      exact lookupA_putList_self _ _ _
    · intro c hc
      rw [getStore_setStore_self _ _ _ hm]
      exact lookupA_putList_other _ _ _ _ hc

/-- Witness for C5 at concrete inputs: `"auto"` is an auto-key sentinel; a
`null` key resolves with generated key 1; the explicit key `"name"` is echoed
back. -/
theorem c5_set_key_policy_witness :
    isAuto (.key (.str "auto")) = true ∧
    (setOp demoState 0 "T" .kNull "b").2 = .ok (.num 1) ∧
    (setOp demoState 0 "T" (.key (.str "name")) "c").2 = .ok (.str "name") :=
  ⟨((c5_set_key_policy String).1 (.key (.str "auto"))).mpr (Or.inr (Or.inr (Or.inr rfl))),
    ((c5_set_key_policy String).2.1 demoState 0 "T" .kNull "b" (by decide) (by decide)
      (by decide)).1,
    ((c5_set_key_policy String).2.2 demoState 0 "T" (.str "name") "c" (by decide) (by decide)
      (by decide)).1⟩

/-- C6: writing a value at an explicit, non-sentinel key through the facade
and then reading the same key back with no intervening writes resolves with
exactly the written value. -/
theorem c6_set_get_roundtrip {V : Type} (s : WState V) (t : String) (k : JKey) (v : V) (r : JKey)
    (hk : isAuto (.key k) = false)
    (hm : t ∈ storeNameList s.e.db)
    (hok : (useSet s t (.key k) v).2 = .ok r) :
    useGet (useSet s t (.key k) v).1 t k = ((useSet s t (.key k) v).1, .ok (some v)) := by
  have hcond : ¬(k = .str "auto" ∨ k = .str "") := by
    intro hc
    rw [isAuto, if_pos hc] at hk
    simp at hk
  unfold useSet at hok ⊢
  rcases hot : openTable s t with ⟨sa, ra⟩
  rw [hot] at hok
  cases ra with
  | error er =>
    dsimp only at hok
    exact Except.noConfusion hok
  | ok h =>
    dsimp only at hok ⊢
    have hms : t ∈ storeNameList sa.e.db := by
      have hx := openTable_db_mono s t t hm
      rw [hot] at hx
      exact hx
    have hcache : lookupA sa.w.tables t = some h := by
      have hx := openTable_ok_cache s t h (by rw [hot])
      rw [hot] at hx
      exact hx
    cases htx : txCheck sa.e h t with
    | some er =>
      unfold setOp at hok
      rw [htx] at hok
      dsimp only at hok
      exact Except.noConfusion hok
    | none =>
      have hset : setOp sa h t (.key k) v
          = (⟨sa.w, { sa.e with
                db := setStore sa.e.db t (putRecord (getStore sa.e.db t) k v) }⟩, .ok k) := by
        unfold setOp
        rw [htx]
        dsimp only
        rw [if_neg hcond]
      rw [hset]
      unfold useGet openTable
      dsimp only
      rw [hcache]
      dsimp only
      unfold getOp
      rw [show txCheck
            { db := setStore sa.e.db t (putRecord (getStore sa.e.db t) k v),
              handles := sa.e.handles, nextHandle := sa.e.nextHandle,
              failures := sa.e.failures, opens := sa.e.opens } h t
          = txCheck sa.e h t from rfl, htx]
      dsimp only
      rw [show getStore
            (setStore sa.e.db t (putRecord (getStore sa.e.db t) k v)) t
          = putRecord (getStore sa.e.db t) k v from
        getStore_setStore_self sa.e.db t _ hms]
      rw [show (putRecord (getStore sa.e.db t) k v).records
          = putList (getStore sa.e.db t).records k v from rfl]
      rw [lookupA_putList_self]

/-- Witness for C6 at a concrete input: writing `"w"` at key `"k"` and reading
`"k"` back returns `"w"`. -/
theorem c6_set_get_roundtrip_witness :
    useGet (useSet demoState "T" (.key (.str "k")) "w").1 "T" (.str "k")
      = ((useSet demoState "T" (.key (.str "k")) "w").1, .ok (some "w")) :=
  c6_set_get_roundtrip demoState "T" (.str "k") "w" (.str "k") (by decide) (by decide)
    (by decide)

/-- C7: when `JSON.parse` fails (`parsed = none`), `import` throws the format
error with the state completely untouched — the parse step is before any store
access. That guarantee is specific to the parse step: the second conjunct
exhibits an import that fails partway (on store `"b"`) after store `"a"` has
already been cleared and overwritten, so per-store mutation is not atomic
across stores. -/
theorem c7_parse_failure_before_mutation :
    (∀ (V : Type) (s : WState V), importW s none = (s, .error .formatError)) ∧
    (c7Partial.2 = .error .connError ∧
      lookupA c7Partial.1.e.db.stores "a" = some ⟨[(.num 1, "x")], 2⟩ ∧
      lookupA c7Partial.1.e.db.stores "b" = none) :=
  ⟨fun _ _ => rfl, by decide⟩

/-- C8: constructing with the empty string or any non-string argument fails
with the synchronous construction error, and any string whose trim is
non-empty constructs successfully — the constructor only records the name,
leaving no connection, an empty facade cache and no active table, and its
type involves no engine state at all (storage is untouched). The `Except` here
models a synchronous `throw`, not a rejected promise: the constructor is the
one modelled operation that is not a state transformer over the engine. -/
theorem c8_constructor_validation :
    constructWrapper (.vString "") = .error .constructionError ∧
    (∀ a : JSArg, isStringArg a = false →
      constructWrapper a = .error .constructionError) ∧
    (∀ s : String, jsTrim s ≠ "" →
      constructWrapper (.vString s) = .ok ⟨s, none, [], none⟩) := by
  refine ⟨by decide, ?_, ?_⟩
  · intro a ha
    cases a <;> simp [isStringArg] at ha ⊢ <;> rfl
  · intro s hs
    have hcond : ¬(s = "" ∨ jsTrim s = "") := by
      rintro (rfl | he)
      · exact hs (by decide)
      · exact hs he
    simp only [constructWrapper, if_neg hcond]

/-- Witness for C8 at concrete arguments: `null` is rejected, `"mydb"`
constructs the pristine wrapper. -/
theorem c8_constructor_validation_witness :
    constructWrapper .vNull = .error .constructionError ∧
    constructWrapper (.vString "mydb") = .ok ⟨"mydb", none, [], none⟩ :=
  ⟨c8_constructor_validation.2.1 .vNull (by decide),
    c8_constructor_validation.2.2 "mydb" (by decide)⟩

/-- C9: a database name that is a non-empty string consisting only of
whitespace is rejected by the `dbName.trim() === ""` clause with the very same
synchronous construction error as the empty string. -/
theorem c9_whitespace_name_rejected (s : String) (_hne : s ≠ "") (htr : jsTrim s = "") :
    constructWrapper (.vString s) = .error .constructionError ∧
    constructWrapper (.vString s) = constructWrapper (.vString "") := by
  have hcond : s = "" ∨ jsTrim s = "" := .inr htr
  refine ⟨?_, ?_⟩
  · simp only [constructWrapper, if_pos hcond]
  · simp only [constructWrapper, if_pos hcond]
    decide

/-- Witness for C9 at two concrete names: `"   "` (three spaces) and
`"\u00A0"` (a single no-break space, which JS `trim` also strips). -/
theorem c9_whitespace_name_rejected_witness :
    (constructWrapper (.vString "   ") = .error .constructionError ∧
      constructWrapper (.vString "   ") = constructWrapper (.vString "")) ∧
    (constructWrapper (.vString "\u00A0") = .error .constructionError ∧
      constructWrapper (.vString "\u00A0") = constructWrapper (.vString "")) :=
  ⟨c9_whitespace_name_rejected "   " (by decide) (by decide),
    c9_whitespace_name_rejected "\u00A0" (by decide) (by decide)⟩

/-- C10 counterexample: a successful import does NOT always end with the
connection closed and `#db` null — importing an empty envelope resolves while
the previously stored handle 0 is still open and still stored in `#db`,
because `db.close(); this.#db = null` only runs inside the per-store loop
body. -/
theorem c10_counterexample :
    c10Empty.2 = .ok () ∧
    c10Empty.1.w.db = some 0 ∧
    handleIsOpen c10Empty.1.e 0 = true := by
  decide

/-- C10 (amended): for every envelope with at least one store, a successful
`import` ends with the stored connection reset to `null` and every engine
handle closed (assuming, as holds in every reachable state, that only the
stored connection's handle could have been open beforehand), so the next table
operation or drop reopens the database from scratch. The unamended claim is
refuted by the empty envelope (see the counterexample), whose import resolves
without touching `#db`. -/
theorem c10_amended_import_closes (V : Type) (s : WState V)
    (data : List (String × List (JKey × V))) (h1 : data ≠ []) (h2 : onlyDbOpen s)
    (h3 : (importW s (some data)).2 = .ok ()) :
    (importW s (some data)).1.w.db = none ∧ allClosed (importW s (some data)).1.e :=
  importLoop_ends_closed data s h2 h1 h3

/-- Witness for C10 (amended) at a concrete input: importing a one-store
envelope into a fresh wrapper succeeds and ends with no stored connection and
all handles closed. -/
theorem c10_amended_import_closes_witness :
    (importW (initState String "d" []) (some [("a", [(JKey.num 1, "x")])])).1.w.db = none ∧
    allClosed (importW (initState String "d" []) (some [("a", [(JKey.num 1, "x")])])).1.e :=
  c10_amended_import_closes String (initState String "d" []) [("a", [(JKey.num 1, "x")])]
    (by decide) (by decide) (by decide)
